import Mathlib

/-!
Verification development for the Polymarket copy-trading bot
(`polymarket_copy_trading_bot`): a shallow embedding of the
event-decoding monitor (`trade_monitor.py`), the trade store
(`database.py`, in-memory backend) and the executor
(`trade_executor.py`), with theorems checking the design
specification's claims against the code.

Modelling conventions:
- Python floats carrying on-chain amounts, prices and sizes are
  modelled as rationals (`ℚ`), so that `usdc_amt / token_amt` is exact
  division; timestamps are integers.
- The in-memory store backend (`self._in_memory`, a Python list of
  dicts) is a `List TradeDoc`; the MongoDB backend is out of scope.
- The order venue (`py_clob_client`) is an abstract function from the
  attempt index to `Except` (an exception raised by
  `create_order`/`post_order`, or the response of `post_order`);
  `client = none` is the simulated mode of `trade_executor.py`.
- Side effects are made explicit: `handle_event` returns the new store
  contents and the document passed to the trade callback (`none` when
  the callback is not invoked); `execute_trade` returns the new store
  contents, the outcome, the list of orders submitted to the venue and
  the list of `update_trade_status` writes it performed, in order.
-/

namespace CopyBot

/-- Lower-casing of one character (ASCII range, which covers the hex
addresses and side strings the code lower-cases). -/
def pyLowerChar (c : Char) : Char :=
  if 65 ≤ c.toNat ∧ c.toNat ≤ 90 then Char.ofNat (c.toNat + 32) else c

/-- Python's `str.lower()`, defined structurally over the characters. -/
def pyLower (s : String) : String := String.mk (s.data.map pyLowerChar)

/-- A raw `orderFilled` event as consumed by `TradeMonitor.handle_event`:
maker/taker addresses, the two (asset id, filled amount) legs, the
transaction hash and the block number. -/
structure RawEvent where
  maker : String
  taker : String
  makerAssetId : Nat
  takerAssetId : Nat
  makerAmountFilled : ℚ
  takerAmountFilled : ℚ
  transactionHash : String
  blockNumber : Nat
deriving Repr, DecidableEq

/-- The `trade_data` dict built by `handle_event` before persistence. -/
structure TradeData where
  trade_id : String
  market : String
  asset_id : String
  side : String
  price : ℚ
  size : ℚ
  timestamp : Int
deriving Repr, DecidableEq

/-- The `trade_doc` dict built by `TradeDatabase.save_trade`:
the trade data plus lifecycle fields. -/
structure TradeDoc where
  trade_id : String
  market : String
  asset_id : String
  side : String
  price : ℚ
  size : ℚ
  timestamp : Int
  status : String
  retry_count : Nat
  created_at : Int
deriving Repr, DecidableEq

/-- The document `TradeDatabase.save_trade` constructs from
`trade_data`, `status`, `retry_count` and the current wall-clock time
(`time.time()`, passed here as `now`). -/
def mkTradeDoc (td : TradeData) (status : String) (retry_count : Nat)
    (now : Int) : TradeDoc :=
  { trade_id := td.trade_id
    market := td.market
    asset_id := td.asset_id
    side := td.side
    price := td.price
    size := td.size
    timestamp := td.timestamp
    status := status
    retry_count := retry_count
    created_at := now }

/-- `TradeDatabase.save_trade` on the in-memory backend: appends the
constructed document to `self._in_memory` and returns it. -/
def save_trade (db : List TradeDoc) (td : TradeData) (status : String)
    (retry_count : Nat) (now : Int) : List TradeDoc × TradeDoc :=
  let doc := mkTradeDoc td status retry_count now
  (db ++ [doc], doc)

/-- `save_trade` called with its Python default arguments
`status="pending"`, `retry_count=0`. -/
def save_trade_default (db : List TradeDoc) (td : TradeData) (now : Int) :
    List TradeDoc × TradeDoc :=
  save_trade db td "pending" 0 now

/-- `TradeDatabase.update_trade_status` on the in-memory backend: walk
the list, update the first document whose `trade_id` matches (set
`status`, and `retry_count` when one is given) and stop (`break`);
a no-op when no document matches. -/
def update_trade_status (trade_id : String) (status : String)
    (retry_count : Option Nat) : List TradeDoc → List TradeDoc
  | [] => []
  | t :: ts =>
    if t.trade_id = trade_id then
      { t with status := status,
               retry_count := retry_count.getD t.retry_count } :: ts
    else
      t :: update_trade_status trade_id status retry_count ts

/-- `TradeDatabase.get_pending_trades` on the in-memory backend. -/
def get_pending_trades (db : List TradeDoc) : List TradeDoc :=
  db.filter (fun t => t.status = "pending")

/-- The `side` local of `TradeMonitor.handle_event`: when the target
is the maker, `"buy"` iff `makerAssetId == 0`, otherwise `"buy"` iff
`takerAssetId == 0`. -/
def codeSide (target_wallet : String) (ev : RawEvent) : String :=
  if pyLower ev.maker = target_wallet then
    (if ev.makerAssetId = 0 then "buy" else "sell")
  else
    (if ev.takerAssetId = 0 then "buy" else "sell")

/-- The `token_amt` local of `TradeMonitor.handle_event`: the filled
amount the code takes as the asset leg, selected from side and role. -/
def codeTokenAmt (target_wallet : String) (ev : RawEvent) : ℚ :=
  if pyLower ev.maker = target_wallet then
    (if codeSide target_wallet ev = "buy" then ev.takerAmountFilled
     else ev.makerAmountFilled)
  else
    (if codeSide target_wallet ev = "buy" then ev.makerAmountFilled
     else ev.takerAmountFilled)

/-- The `usdc_amt` local of `TradeMonitor.handle_event`: the filled
amount the code takes as the cash leg, selected from side and role. -/
def codeUsdcAmt (target_wallet : String) (ev : RawEvent) : ℚ :=
  if pyLower ev.maker = target_wallet then
    (if codeSide target_wallet ev = "buy" then ev.makerAmountFilled
     else ev.takerAmountFilled)
  else
    (if codeSide target_wallet ev = "buy" then ev.takerAmountFilled
     else ev.makerAmountFilled)

/-- The decoding part of `TradeMonitor.handle_event` (lines 29-67 of
`trade_monitor.py`): account matching, side inference, amount
selection, price/size computation and `trade_data` construction; the
code's `side`/`token_amt`/`usdc_amt` locals are the named definitions
above. `blockTime` models
`self.w3.eth.get_block(blockNumber)["timestamp"]`. Returns `none` when
neither maker nor taker is the target wallet. -/
def decode_event (target_wallet : String) (blockTime : Nat → Int)
    (ev : RawEvent) : Option TradeData :=
  let maker := pyLower ev.maker
  let taker := pyLower ev.taker
  if maker ≠ target_wallet ∧ taker ≠ target_wallet then
    none
  else
    let side := codeSide target_wallet ev
    let token_amt := codeTokenAmt target_wallet ev
    let usdc_amt := codeUsdcAmt target_wallet ev
    let price := if token_amt > 0 then usdc_amt / token_amt else 0
    let size := token_amt / 1e6
    let asset_id :=
      toString (if ev.makerAssetId ≠ 0 then ev.makerAssetId else ev.takerAssetId)
    some { trade_id := ev.transactionHash
           market := "unknown"
           asset_id := asset_id
           side := side
           price := price
           size := size
           timestamp := blockTime ev.blockNumber }

/-- `TradeMonitor.handle_event`: decode the event; when it matches the
target, check the staleness guard `timestamp >= now - TOO_OLD_TIMESTAMP`
(`too_old`), and if fresh persist via `save_trade` (default arguments)
and invoke `self.trade_callback` with the persisted document. Returns
the store contents after the call and the document passed to the
callback (`none` when the callback was not invoked). -/
def handle_event (target_wallet : String) (too_old : Int) (now : Int)
    (blockTime : Nat → Int) (ev : RawEvent) (db : List TradeDoc) :
    List TradeDoc × Option TradeDoc :=
  match decode_event target_wallet blockTime ev with
  | none => (db, none)
  | some td =>
    if td.timestamp ≥ now - too_old then
      let r := save_trade_default db td now
      (r.1, some r.2)
    else
      (db, none)

/-- The order-builder constant `BUY` of `py_clob_client`. -/
def BUY : String := "BUY"

/-- The order-builder constant `SELL` of `py_clob_client`. -/
def SELL : String := "SELL"

/-- The `OrderArgs` built by `TradeExecutor.execute_trade` for each
submission attempt: price, (scaled) size, side constant and token id. -/
structure OrderArgs where
  price : ℚ
  size : ℚ
  side : String
  token_id : String
deriving Repr, DecidableEq

/-- The value returned by `TradeExecutor.execute_trade`: the venue's
response `resp` on a successful submission, the simulated-execution
dict when no client is configured, or the failure dict carrying the
last error. -/
inductive ExecOutcome where
  | venueResp (resp : String)
  | simulated (trade_id : String)
  | failed (error : String)
deriving Repr, DecidableEq

/-- Everything observable about one `execute_trade` call: the store
contents when it returns, its return value, the orders submitted to
the venue (one per attempt that reached submission, in order) and the
`update_trade_status` writes it performed (trade id and status, in
order; the code never passes a retry count). -/
structure ExecResult where
  db : List TradeDoc
  outcome : ExecOutcome
  submitted : List OrderArgs
  writes : List (String × String)
deriving Repr, DecidableEq

/-- An abstract order venue: for each attempt index, either the
response of `post_order` or the exception raised by the attempt's
`create_order`/`post_order` call. `none` in place of a venue models
`self.client = None` (simulated mode). -/
def Venue : Type := Nat → Except String String

/-- The `for attempt in range(RETRY_LIMIT + 1)` loop of
`TradeExecutor.execute_trade`. The Python loop counts `attempt` up and
retries while `attempt < RETRY_LIMIT`; here `remaining` counts the
attempts still allowed after the current one (`remaining =
retry_limit - attempt`), so `attempt < RETRY_LIMIT` is `remaining > 0`
and the recursion is structural. Each iteration: with no client,
simulate (mark `success`, return the simulated dict, no submission);
otherwise submit the order, on success mark `success` and return the
response, on an exception retry when attempts remain, else mark
`failed` and return the failure dict with the exception's message. -/
def execLoop (client : Option Venue) (trade_id : String)
    (order : OrderArgs) :
    Nat → Nat → List TradeDoc → List OrderArgs → ExecResult
  | attempt, 0, db, subs =>
    match client with
    | none =>
      { db := update_trade_status trade_id "success" none db
        outcome := ExecOutcome.simulated trade_id
        submitted := subs
        writes := [(trade_id, "success")] }
    | some venue =>
      match venue attempt with
      | Except.ok resp =>
        { db := update_trade_status trade_id "success" none db
          outcome := ExecOutcome.venueResp resp
          submitted := subs ++ [order]
          writes := [(trade_id, "success")] }
      | Except.error e =>
        { db := update_trade_status trade_id "failed" none db
          outcome := ExecOutcome.failed e
          submitted := subs ++ [order]
          writes := [(trade_id, "failed")] }
  | attempt, Nat.succ r, db, subs =>
    match client with
    | none =>
      { db := update_trade_status trade_id "success" none db
        outcome := ExecOutcome.simulated trade_id
        submitted := subs
        writes := [(trade_id, "success")] }
    | some venue =>
      match venue attempt with
      | Except.ok resp =>
        { db := update_trade_status trade_id "success" none db
          outcome := ExecOutcome.venueResp resp
          submitted := subs ++ [order]
          writes := [(trade_id, "success")] }
      | Except.error _e =>
        execLoop client trade_id order (attempt + 1) r db (subs ++ [order])

/-- `TradeExecutor.execute_trade`: read the fields of `trade_doc`,
scale the size by `0.2` (`0` when the size is falsy), map the side to
the `BUY`/`SELL` constant by `side.lower() == "buy"`, then run the
retry loop with `RETRY_LIMIT + 1` total attempts. -/
def execute_trade (retry_limit : Nat) (client : Option Venue)
    (td : TradeDoc) (db : List TradeDoc) : ExecResult :=
  let size := if td.size ≠ 0 then td.size * 0.2 else 0
  let side_constant := if pyLower td.side = "buy" then BUY else SELL
  execLoop client td.trade_id
    { price := td.price, size := size, side := side_constant,
      token_id := td.asset_id }
    0 retry_limit db []

/-! Definitions following the specification's words (section 4.2),
used to compare the decoder against the spec's description of the leg
encoding. The cash leg is the leg whose asset id is the zero
sentinel. -/

/-- The event has exactly one cash leg (asset id `0`), which is what
makes "the cash leg" and "the asset leg" well defined. -/
def oneCashLeg (ev : RawEvent) : Prop :=
  ev.makerAssetId = 0 ↔ ev.takerAssetId ≠ 0

instance (ev : RawEvent) : Decidable (oneCashLeg ev) := by
  unfold oneCashLeg; infer_instance

/-- Following the spec: the filled amount of the asset (non-cash)
leg. -/
def specAssetAmt (ev : RawEvent) : ℚ :=
  if ev.makerAssetId = 0 then ev.takerAmountFilled else ev.makerAmountFilled

/-- Following the spec: the filled amount of the cash leg. -/
def specCashAmt (ev : RawEvent) : ℚ :=
  if ev.makerAssetId = 0 then ev.makerAmountFilled else ev.takerAmountFilled

/-- Following the spec: the asset id of the non-cash leg. -/
def specAssetId (ev : RawEvent) : Nat :=
  if ev.makerAssetId = 0 then ev.takerAssetId else ev.makerAssetId

/-- Following the spec: the target bought iff the leg it supplied (the
maker leg when the target is the maker, the taker leg otherwise) is
the cash leg; otherwise it sold. -/
def specSide (is_maker : Bool) (ev : RawEvent) : String :=
  if (if is_maker then ev.makerAssetId else ev.takerAssetId) = 0 then "buy"
  else "sell"

/-! Shared lemmas about the in-memory store. -/

/-- `update_trade_status` preserves the number of records. -/
lemma update_trade_status_length (tid st : String) (rc : Option Nat) :
    ∀ db : List TradeDoc, (update_trade_status tid st rc db).length = db.length
  | [] => rfl
  | t :: ts => by
    by_cases h : t.trade_id = tid <;>
      simp [update_trade_status, h, update_trade_status_length tid st rc ts]

/-- `update_trade_status` is a no-op when no record has the given
trade id. -/
lemma update_trade_status_not_mem (tid st : String) (rc : Option Nat) :
    ∀ db : List TradeDoc, (∀ d ∈ db, d.trade_id ≠ tid) →
      update_trade_status tid st rc db = db
  | [], _ => rfl
  | t :: ts, h => by
    have ht : t.trade_id ≠ tid := h t (List.mem_cons_self t ts)
    simp [update_trade_status, ht,
      update_trade_status_not_mem tid st rc ts
        (fun d hd => h d (List.mem_cons_of_mem t hd))]

/-- `update_trade_status` rewrites exactly the first record carrying
the trade id and leaves everything before and after it unchanged. -/
lemma update_trade_status_first (tid st : String) (rc : Option Nat)
    (d : TradeDoc) (post : List TradeDoc) (hd : d.trade_id = tid) :
    ∀ pre : List TradeDoc, (∀ x ∈ pre, x.trade_id ≠ tid) →
      update_trade_status tid st rc (pre ++ d :: post) =
        pre ++ { d with status := st,
                        retry_count := rc.getD d.retry_count } :: post
  | [], _ => by simp [update_trade_status, hd]
  | t :: ts, h => by
    have ht : t.trade_id ≠ tid := h t (List.mem_cons_self t ts)
    simp only [List.cons_append, update_trade_status, ht, if_neg ht]
    simp [update_trade_status_first tid st rc d post hd ts
      (fun x hx => h x (List.mem_cons_of_mem t hx))]

/-- Records whose trade id differs from the updated one are unchanged
in place by `update_trade_status`. -/
lemma update_trade_status_get_ne (tid st : String) (rc : Option Nat) :
    ∀ (db : List TradeDoc) (i : Nat) (d : TradeDoc),
      db.get? i = some d → d.trade_id ≠ tid →
      (update_trade_status tid st rc db).get? i = some d
  | [], i, _, h, _ => by simp at h
  | t :: ts, 0, d, h, hne => by
    have hd : t = d := by simpa using h
    subst hd
    have ht : t.trade_id ≠ tid := hne
    simp [update_trade_status, ht]
  | t :: ts, Nat.succ i, d, h, hne => by
    have h' : ts.get? i = some d := by simpa using h
    by_cases ht : t.trade_id = tid
    · simpa [update_trade_status, ht] using h'
    · have hrec := update_trade_status_get_ne tid st rc ts i d h' hne
      simpa [update_trade_status, ht] using hrec

/-- When some record carries the trade id, `update_trade_status`
leaves a record with that trade id and the new status in the store. -/
lemma update_trade_status_exists_mem (tid st : String) (rc : Option Nat) :
    ∀ db : List TradeDoc, (∃ d ∈ db, d.trade_id = tid) →
      ∃ d2 ∈ update_trade_status tid st rc db,
        d2.trade_id = tid ∧ d2.status = st
  | [], h => absurd h (by simp)
  | t :: ts, h => by
    by_cases ht : t.trade_id = tid
    · refine ⟨{ t with status := st, retry_count := rc.getD t.retry_count },
        ?_, ht, rfl⟩
      simp [update_trade_status, ht]
    · obtain ⟨d, hd, hdid⟩ := h
      rcases List.mem_cons.mp hd with rfl | hd'
      · exact absurd hdid ht
      · obtain ⟨d2, hd2, hprop⟩ :=
          update_trade_status_exists_mem tid st rc ts ⟨d, hd', hdid⟩
        exact ⟨d2, by simp [update_trade_status, ht, hd2], hprop⟩

/-! Shared lemmas about the executor's retry loop. -/

/-- With a venue that raises on every attempt, the retry loop makes
exactly `remaining + 1` further submissions, performs only the final
`failed` write and returns the error of the last attempt. -/
lemma execLoop_all_fail (venue : Venue) (errs : Nat → String)
    (h : ∀ i, venue i = Except.error (errs i)) (tid : String)
    (order : OrderArgs) :
    ∀ (remaining attempt : Nat) (db : List TradeDoc)
      (subs : List OrderArgs),
      execLoop (some venue) tid order attempt remaining db subs =
        { db := update_trade_status tid "failed" none db
          outcome := ExecOutcome.failed (errs (attempt + remaining))
          submitted := subs ++ List.replicate (remaining + 1) order
          writes := [(tid, "failed")] } := by
  intro remaining
  induction remaining with
  | zero =>
    intro attempt db subs
    simp [execLoop, h attempt]
  | succ r ih =>
    intro attempt db subs
    have step :
        execLoop (some venue) tid order attempt (r + 1) db subs =
          execLoop (some venue) tid order (attempt + 1) r db
            (subs ++ [order]) := by
      simp [execLoop, h attempt]
    rw [step, ih (attempt + 1) db (subs ++ [order])]
    have hidx : attempt + 1 + r = attempt + (r + 1) := by omega
    simp [hidx, List.replicate_succ, List.append_assoc]

/-- With a venue that raises on the first `remaining` attempts and
then answers, the retry loop makes exactly `remaining + 1` further
submissions, performs only the `success` write and returns the
venue's response. -/
lemma execLoop_fail_then_ok (venue : Venue) (resp : String)
    (tid : String) (order : OrderArgs) :
    ∀ (remaining attempt : Nat) (db : List TradeDoc)
      (subs : List OrderArgs),
      (∀ i, i < remaining → ∃ e, venue (attempt + i) = Except.error e) →
      venue (attempt + remaining) = Except.ok resp →
      execLoop (some venue) tid order attempt remaining db subs =
        { db := update_trade_status tid "success" none db
          outcome := ExecOutcome.venueResp resp
          submitted := subs ++ List.replicate (remaining + 1) order
          writes := [(tid, "success")] } := by
  intro remaining
  induction remaining with
  | zero =>
    intro attempt db subs _ hok
    have hok' : venue attempt = Except.ok resp := by simpa using hok
    simp [execLoop, hok']
  | succ r ih =>
    intro attempt db subs hfail hok
    obtain ⟨e, he⟩ := hfail 0 (Nat.succ_pos r)
    have he' : venue attempt = Except.error e := by simpa using he
    have step :
        execLoop (some venue) tid order attempt (r + 1) db subs =
          execLoop (some venue) tid order (attempt + 1) r db
            (subs ++ [order]) := by
      simp [execLoop, he']
    have hfail' : ∀ i, i < r → ∃ e2, venue (attempt + 1 + i) = Except.error e2 := by
      intro i hi
      have hidx : attempt + 1 + i = attempt + (i + 1) := by omega
      rw [hidx]
      exact hfail (i + 1) (by omega)
    have hok' : venue (attempt + 1 + r) = Except.ok resp := by
      have hidx : attempt + 1 + r = attempt + (r + 1) := by omega
      rw [hidx]; exact hok
    rw [step, ih (attempt + 1) db (subs ++ [order]) hfail' hok']
    simp [List.replicate_succ, List.append_assoc]

/-- Whatever the client and venue behaviour, one run of the retry loop
performs exactly one status write, to the given trade id, with a
terminal status, and the resulting store is that single update of the
initial store. -/
lemma execLoop_writes (client : Option Venue) (tid : String)
    (order : OrderArgs) (db : List TradeDoc) :
    ∀ (remaining attempt : Nat) (subs : List OrderArgs),
      ∃ st, (st = "success" ∨ st = "failed") ∧
        (execLoop client tid order attempt remaining db subs).writes =
          [(tid, st)] ∧
        (execLoop client tid order attempt remaining db subs).db =
          update_trade_status tid st none db := by
  intro remaining
  induction remaining with
  | zero =>
    intro attempt subs
    cases client with
    | none => exact ⟨"success", Or.inl rfl, by simp [execLoop], by simp [execLoop]⟩
    | some venue =>
      cases hv : venue attempt with
      | ok resp =>
        exact ⟨"success", Or.inl rfl, by simp [execLoop, hv], by simp [execLoop, hv]⟩
      | error e =>
        exact ⟨"failed", Or.inr rfl, by simp [execLoop, hv], by simp [execLoop, hv]⟩
  | succ r ih =>
    intro attempt subs
    cases client with
    | none => exact ⟨"success", Or.inl rfl, by simp [execLoop], by simp [execLoop]⟩
    | some venue =>
      cases hv : venue attempt with
      | ok resp =>
        exact ⟨"success", Or.inl rfl, by simp [execLoop, hv], by simp [execLoop, hv]⟩
      | error e =>
        obtain ⟨st, hst, hw, hdb⟩ := ih (attempt + 1) (subs ++ [order])
        have step :
            execLoop (some venue) tid order attempt (r + 1) db subs =
              execLoop (some venue) tid order (attempt + 1) r db
                (subs ++ [order]) := by
          simp [execLoop, hv]
        exact ⟨st, hst, by rw [step]; exact hw, by rw [step]; exact hdb⟩

/-- `td.trade_id` of a decoded intent is the event's transaction
hash. -/
lemma decode_event_trade_id (target : String) (bt : Nat → Int)
    (ev : RawEvent) (td : TradeData)
    (h : decode_event target bt ev = some td) :
    td.trade_id = ev.transactionHash := by
  unfold decode_event at h
  by_cases hc : pyLower ev.maker ≠ target ∧ pyLower ev.taker ≠ target
  · rw [if_pos hc] at h; cases h
  · rw [if_neg hc] at h
    injection h with h2
    subst h2
    rfl

/-! Concrete fixtures used by witnesses and counterexamples. -/

/-- Fixture block-time lookup: every block has timestamp 1000. -/
def tBT : Nat → Int := fun _ => 1000

/-- Fixture event: the target `0xaaa` (upper-cased on the wire) is the
maker and supplies the cash leg, so it buys asset `7`. -/
def evA : RawEvent :=
  { maker := "0xAAA", taker := "0xbbb", makerAssetId := 0, takerAssetId := 7,
    makerAmountFilled := 65, takerAmountFilled := 100,
    transactionHash := "0xdeadbeef", blockNumber := 5 }

/-- The trade data `decode_event` produces for `evA`. -/
def tdA : TradeData :=
  { trade_id := "0xdeadbeef", market := "unknown", asset_id := "7",
    side := "buy", price := 65 / 100, size := 100 / 1e6, timestamp := 1000 }

/-- Fixture event matching the target whose asset-leg filled amount is
`0`. -/
def evZ : RawEvent :=
  { maker := "0xaaa", taker := "0xbbb", makerAssetId := 0, takerAssetId := 7,
    makerAmountFilled := 65, takerAmountFilled := 0,
    transactionHash := "0xfeed", blockNumber := 5 }

/-- Fixture event matching neither maker nor taker. -/
def evN : RawEvent :=
  { maker := "0xccc", taker := "0xddd", makerAssetId := 0, takerAssetId := 7,
    makerAmountFilled := 65, takerAmountFilled := 100,
    transactionHash := "0xbeef", blockNumber := 5 }

/-- Fixture stored trade document. -/
def docFix (tid st : String) : TradeDoc :=
  { trade_id := tid, market := "unknown", asset_id := "42", side := "buy",
    price := 1, size := 100, timestamp := 1000, status := st,
    retry_count := 0, created_at := 1000 }

/-- Fixture trade document with a malformed side. -/
def docBad : TradeDoc :=
  { trade_id := "t1", market := "unknown", asset_id := "42",
    side := "banana", price := 1, size := 100, timestamp := 1000,
    status := "pending", retry_count := 0, created_at := 1000 }

/-- Fixture trade data to be saved. -/
def tdFix : TradeData :=
  { trade_id := "0xdeadbeef", market := "unknown", asset_id := "7",
    side := "buy", price := 1, size := 1, timestamp := 1000 }

/-! The claims. -/

/-- C9: saving a trade with the store's default arguments and then
reading the pending list returns a record for that trade id with
status `pending` and retry count `0`; and `update_trade_status` for a
trade id absent from the store is a no-op raising no error and leaving
every stored record unchanged. -/
theorem c9_save_list_pending_update_absent
    (td : TradeData) (db : List TradeDoc) (now : Int)
    (tid st : String) (rc : Option Nat) :
    (∃ d ∈ get_pending_trades (save_trade_default db td now).1,
        d.trade_id = td.trade_id ∧ d.status = "pending" ∧
          d.retry_count = 0)
    ∧ ((∀ d ∈ db, d.trade_id ≠ tid) →
        update_trade_status tid st rc db = db) := by
  constructor
  · refine ⟨mkTradeDoc td "pending" 0 now, ?_, rfl, rfl, rfl⟩
    simp [get_pending_trades, save_trade_default, save_trade, mkTradeDoc]
  · exact update_trade_status_not_mem tid st rc db

/-- Witness for C9 at a concrete trade, empty store and absent trade
id. -/
theorem c9_witness :
    (∃ d ∈ get_pending_trades (save_trade_default [] tdFix 1000).1,
        d.trade_id = tdFix.trade_id ∧ d.status = "pending" ∧
          d.retry_count = 0)
    ∧ update_trade_status "absent" "success" none [] = [] :=
  ⟨(c9_save_list_pending_update_absent tdFix [] 1000 "absent" "success"
      none).1,
   (c9_save_list_pending_update_absent tdFix [] 1000 "absent" "success"
      none).2 (by simp)⟩

/-- C10: on the in-memory backend, when several records share a trade
id, `update_trade_status` rewrites only the first matching record in
insertion order; every record before it, and every record after it —
later records with the same trade id included — keeps its previous
status and retry count. -/
theorem c10_update_only_first_match (tid st : String) (rc : Option Nat)
    (pre post : List TradeDoc) (d : TradeDoc)
    (hpre : ∀ x ∈ pre, x.trade_id ≠ tid) (hd : d.trade_id = tid) :
    update_trade_status tid st rc (pre ++ d :: post) =
      pre ++ { d with status := st,
                      retry_count := rc.getD d.retry_count } :: post :=
  update_trade_status_first tid st rc d post hd pre hpre

/-- Witness for C10: a store holding two records with the same trade
id; the update touches only the first one. -/
theorem c10_witness :
    update_trade_status "t1" "failed" none
        ([] ++ docFix "t1" "pending" :: [docFix "t1" "pending"]) =
      [] ++ { docFix "t1" "pending" with
              status := "failed",
              retry_count :=
                (none : Option Nat).getD (docFix "t1" "pending").retry_count }
        :: [docFix "t1" "pending"] :=
  c10_update_only_first_match "t1" "failed" none [] [docFix "t1" "pending"]
    (docFix "t1" "pending") (by simp) rfl

/-- C6: with a configured order venue whose every submission attempt
raises, `execute_trade` makes exactly `RETRY_LIMIT + 1` submission
attempts, records the intent's stored status as `failed`, and returns
a failure outcome carrying the last attempt's error. -/
theorem c6_always_failing_venue (retry_limit : Nat) (venue : Venue)
    (errs : Nat → String) (td : TradeDoc) (db : List TradeDoc)
    (h : ∀ i, venue i = Except.error (errs i)) :
    (execute_trade retry_limit (some venue) td db).submitted.length =
      retry_limit + 1 ∧
    (execute_trade retry_limit (some venue) td db).outcome =
      ExecOutcome.failed (errs retry_limit) ∧
    (execute_trade retry_limit (some venue) td db).writes =
      [(td.trade_id, "failed")] ∧
    (execute_trade retry_limit (some venue) td db).db =
      update_trade_status td.trade_id "failed" none db ∧
    ((∃ d ∈ db, d.trade_id = td.trade_id) →
      ∃ d2 ∈ (execute_trade retry_limit (some venue) td db).db,
        d2.trade_id = td.trade_id ∧ d2.status = "failed") := by
  have hexec : execute_trade retry_limit (some venue) td db =
      execLoop (some venue) td.trade_id
        { price := td.price,
          size := if td.size ≠ 0 then td.size * 0.2 else 0,
          side := if pyLower td.side = "buy" then BUY else SELL,
          token_id := td.asset_id }
        0 retry_limit db [] := by
    simp only [execute_trade]
  rw [hexec, execLoop_all_fail venue errs h td.trade_id _ retry_limit 0 db []]
  refine ⟨by simp, by simp, rfl, rfl, ?_⟩
  intro hex
  exact update_trade_status_exists_mem td.trade_id "failed" none db hex

/-- Witness for C6: retry limit 2, a venue raising "boom" on every
attempt and a store holding the intent's record. -/
theorem c6_witness :
    (execute_trade 2 (some fun _ => Except.error "boom")
        (docFix "t1" "pending") [docFix "t1" "pending"]).submitted.length =
      2 + 1 ∧
    (execute_trade 2 (some fun _ => Except.error "boom")
        (docFix "t1" "pending") [docFix "t1" "pending"]).outcome =
      ExecOutcome.failed "boom" ∧
    (execute_trade 2 (some fun _ => Except.error "boom")
        (docFix "t1" "pending") [docFix "t1" "pending"]).writes =
      [("t1", "failed")] ∧
    ∃ d2 ∈ (execute_trade 2 (some fun _ => Except.error "boom")
        (docFix "t1" "pending") [docFix "t1" "pending"]).db,
      d2.trade_id = "t1" ∧ d2.status = "failed" := by
  have h := c6_always_failing_venue 2 (fun _ => Except.error "boom")
    (fun _ => "boom") (docFix "t1" "pending") [docFix "t1" "pending"]
    (fun _ => rfl)
  exact ⟨h.1, h.2.1, h.2.2.1,
    h.2.2.2.2 ⟨docFix "t1" "pending", by simp, rfl⟩⟩

/-- C7: with a configured order venue that raises on exactly the first
`RETRY_LIMIT` attempts and then answers, `execute_trade` returns the
venue's response and the intent's stored status is `success`. -/
theorem c7_retry_then_success (retry_limit : Nat) (venue : Venue)
    (resp : String) (td : TradeDoc) (db : List TradeDoc)
    (hfail : ∀ i, i < retry_limit → ∃ e, venue i = Except.error e)
    (hok : venue retry_limit = Except.ok resp) :
    (execute_trade retry_limit (some venue) td db).outcome =
      ExecOutcome.venueResp resp ∧
    (execute_trade retry_limit (some venue) td db).submitted.length =
      retry_limit + 1 ∧
    (execute_trade retry_limit (some venue) td db).writes =
      [(td.trade_id, "success")] ∧
    (execute_trade retry_limit (some venue) td db).db =
      update_trade_status td.trade_id "success" none db ∧
    ((∃ d ∈ db, d.trade_id = td.trade_id) →
      ∃ d2 ∈ (execute_trade retry_limit (some venue) td db).db,
        d2.trade_id = td.trade_id ∧ d2.status = "success") := by
  have hexec : execute_trade retry_limit (some venue) td db =
      execLoop (some venue) td.trade_id
        { price := td.price,
          size := if td.size ≠ 0 then td.size * 0.2 else 0,
          side := if pyLower td.side = "buy" then BUY else SELL,
          token_id := td.asset_id }
        0 retry_limit db [] := by
    simp only [execute_trade]
  have hfail' : ∀ i, i < retry_limit →
      ∃ e, venue (0 + i) = Except.error e := by
    intro i hi
    simpa using hfail i hi
  have hok' : venue (0 + retry_limit) = Except.ok resp := by simpa using hok
  rw [hexec, execLoop_fail_then_ok venue resp td.trade_id _ retry_limit 0 db
    [] hfail' hok']
  refine ⟨rfl, by simp, rfl, rfl, ?_⟩
  intro hex
  exact update_trade_status_exists_mem td.trade_id "success" none db hex

/-- Witness for C7: retry limit 2 and a venue failing on attempts 0
and 1, then answering "filled" on attempt 2. -/
theorem c7_witness :
    (execute_trade 2
        (some fun i => if i < 2 then Except.error "boom" else Except.ok "filled")
        (docFix "t1" "pending") [docFix "t1" "pending"]).outcome =
      ExecOutcome.venueResp "filled" ∧
    (execute_trade 2
        (some fun i => if i < 2 then Except.error "boom" else Except.ok "filled")
        (docFix "t1" "pending") [docFix "t1" "pending"]).submitted.length =
      2 + 1 ∧
    (execute_trade 2
        (some fun i => if i < 2 then Except.error "boom" else Except.ok "filled")
        (docFix "t1" "pending") [docFix "t1" "pending"]).writes =
      [("t1", "success")] ∧
    ∃ d2 ∈ (execute_trade 2
        (some fun i => if i < 2 then Except.error "boom" else Except.ok "filled")
        (docFix "t1" "pending") [docFix "t1" "pending"]).db,
      d2.trade_id = "t1" ∧ d2.status = "success" := by
  have h := c7_retry_then_success 2
    (fun i => if i < 2 then Except.error "boom" else Except.ok "filled")
    "filled" (docFix "t1" "pending") [docFix "t1" "pending"]
    (fun i hi => ⟨"boom", by simp [hi]⟩) rfl
  exact ⟨h.1, h.2.1, h.2.2.1,
    h.2.2.2.2 ⟨docFix "t1" "pending", by simp, rfl⟩⟩

/-- C8: one `execute_trade` call performs exactly one status write,
for the intent's trade id, with a terminal status (`success` or
`failed`); the store is that single update of the initial store (so
the record's status is untouched — stays `pending` — across all
non-final failed attempts), and every record whose trade id differs
from the intent's is unchanged in place. -/
theorem c8_one_terminal_write_frame (retry_limit : Nat)
    (client : Option Venue) (td : TradeDoc) (db : List TradeDoc) :
    ∃ st, (st = "success" ∨ st = "failed") ∧
      (execute_trade retry_limit client td db).writes =
        [(td.trade_id, st)] ∧
      (execute_trade retry_limit client td db).db =
        update_trade_status td.trade_id st none db ∧
      (execute_trade retry_limit client td db).db.length = db.length ∧
      ∀ (i : Nat) (d : TradeDoc),
        db.get? i = some d → d.trade_id ≠ td.trade_id →
        (execute_trade retry_limit client td db).db.get? i = some d := by
  have hexec : execute_trade retry_limit client td db =
      execLoop client td.trade_id
        { price := td.price,
          size := if td.size ≠ 0 then td.size * 0.2 else 0,
          side := if pyLower td.side = "buy" then BUY else SELL,
          token_id := td.asset_id }
        0 retry_limit db [] := by
    simp only [execute_trade]
  obtain ⟨st, hst, hw, hdb⟩ := execLoop_writes client td.trade_id
    { price := td.price,
      size := if td.size ≠ 0 then td.size * 0.2 else 0,
      side := if pyLower td.side = "buy" then BUY else SELL,
      token_id := td.asset_id }
    db retry_limit 0 []
  rw [hexec]
  refine ⟨st, hst, hw, hdb, ?_, ?_⟩
  · rw [hdb, update_trade_status_length]
  · intro i d hd hne
    rw [hdb]
    exact update_trade_status_get_ne td.trade_id st none db i d hd hne

/-- Witness for C8: a successful venue, the intent's record and an
unrelated record in the store. -/
theorem c8_witness :
    ∃ st, (st = "success" ∨ st = "failed") ∧
      (execute_trade 3 (some fun _ => Except.ok "filled")
          (docFix "t1" "pending")
          [docFix "t1" "pending", docFix "t2" "pending"]).writes =
        [((docFix "t1" "pending").trade_id, st)] ∧
      (execute_trade 3 (some fun _ => Except.ok "filled")
          (docFix "t1" "pending")
          [docFix "t1" "pending", docFix "t2" "pending"]).db =
        update_trade_status (docFix "t1" "pending").trade_id st none
          [docFix "t1" "pending", docFix "t2" "pending"] ∧
      (execute_trade 3 (some fun _ => Except.ok "filled")
          (docFix "t1" "pending")
          [docFix "t1" "pending", docFix "t2" "pending"]).db.length =
        [docFix "t1" "pending", docFix "t2" "pending"].length ∧
      ∀ (i : Nat) (d : TradeDoc),
        [docFix "t1" "pending", docFix "t2" "pending"].get? i = some d →
        d.trade_id ≠ (docFix "t1" "pending").trade_id →
        (execute_trade 3 (some fun _ => Except.ok "filled")
            (docFix "t1" "pending")
            [docFix "t1" "pending", docFix "t2" "pending"]).db.get? i =
          some d :=
  c8_one_terminal_write_frame 3 (some fun _ => Except.ok "filled")
    (docFix "t1" "pending") [docFix "t1" "pending", docFix "t2" "pending"]

/-- Counterexample to C3 as stated: for a trade document whose side is
`"banana"` — neither buy nor sell — `execute_trade` does not fail
fast: it enters the retry loop, submits a SELL order to the venue and
records the intent as `success`. -/
theorem c3_counterexample :
    pyLower docBad.side ≠ "buy" ∧ pyLower docBad.side ≠ "sell" ∧
    (execute_trade 3 (some fun _ => Except.ok "filled")
        docBad []).submitted =
      [{ price := 1, size := 100 * 0.2, side := SELL, token_id := "42" }] ∧
    (execute_trade 3 (some fun _ => Except.ok "filled") docBad []).writes =
      [("t1", "success")] ∧
    (execute_trade 3 (some fun _ => Except.ok "filled") docBad []).outcome =
      ExecOutcome.venueResp "filled" := by
  have hb : pyLower docBad.side ≠ "buy" := by decide
  have hb' : pyLower "banana" ≠ "buy" := hb
  have hs : (100 : ℚ) ≠ 0 := by decide
  refine ⟨hb, by decide, ?_, ?_, ?_⟩ <;>
    simp [execute_trade, execLoop, docBad, hb', hs, update_trade_status]

/-- C3 amended: a trade document whose lower-cased side is not
`"buy"` — malformed sides included — is not rejected: `execute_trade`
maps it to the SELL constant, enters the retry loop and submits a SELL
order; with a venue accepting the first attempt it records the intent
as `success` and returns the venue's response. -/
theorem c3_amended_malformed_side_sells (retry_limit : Nat)
    (venue : Venue) (resp : String) (td : TradeDoc) (db : List TradeDoc)
    (hside : pyLower td.side ≠ "buy")
    (hok : venue 0 = Except.ok resp) :
    (execute_trade retry_limit (some venue) td db).submitted =
      [{ price := td.price,
         size := if td.size ≠ 0 then td.size * 0.2 else 0,
         side := SELL, token_id := td.asset_id }] ∧
    (execute_trade retry_limit (some venue) td db).writes =
      [(td.trade_id, "success")] ∧
    (execute_trade retry_limit (some venue) td db).outcome =
      ExecOutcome.venueResp resp := by
  cases retry_limit with
  | zero => refine ⟨?_, ?_, ?_⟩ <;> simp [execute_trade, execLoop, hok, hside]
  | succ r => refine ⟨?_, ?_, ?_⟩ <;> simp [execute_trade, execLoop, hok, hside]

/-- Witness for the amended C3 at the concrete malformed-side
document. -/
theorem c3_amended_witness :
    (execute_trade 3 (some fun _ => Except.ok "filled")
        docBad []).submitted =
      [{ price := docBad.price,
         size := if docBad.size ≠ 0 then docBad.size * 0.2 else 0,
         side := SELL, token_id := docBad.asset_id }] ∧
    (execute_trade 3 (some fun _ => Except.ok "filled") docBad []).writes =
      [(docBad.trade_id, "success")] ∧
    (execute_trade 3 (some fun _ => Except.ok "filled") docBad []).outcome =
      ExecOutcome.venueResp "filled" :=
  c3_amended_malformed_side_sells 3 (fun _ => Except.ok "filled") "filled"
    docBad [] (by decide) rfl

/-- C5: a decoded matching event whose block timestamp is strictly
below `now - TOO_OLD_TIMESTAMP` is dropped — nothing persisted, no
callback — and one with timestamp at or above the threshold is
persisted as pending and dispatched to the callback. -/
theorem c5_staleness_guard (target : String) (too_old now : Int)
    (bt : Nat → Int) (ev : RawEvent) (db : List TradeDoc)
    (td : TradeData) (hdec : decode_event target bt ev = some td) :
    (td.timestamp < now - too_old →
      handle_event target too_old now bt ev db = (db, none)) ∧
    (now - too_old ≤ td.timestamp →
      handle_event target too_old now bt ev db =
        (db ++ [mkTradeDoc td "pending" 0 now],
         some (mkTradeDoc td "pending" 0 now))) := by
  constructor
  · intro h
    simp only [handle_event, hdec]
    rw [if_neg (not_le.mpr h)]
  · intro h
    simp only [handle_event, hdec]
    rw [if_pos h]
    rfl

/-- Witness for C5: the same decoded event dropped at `now = 10000`
(stale) and persisted plus dispatched at `now = 1000` (fresh). -/
theorem c5_witness :
    handle_event "0xaaa" 300 10000 tBT evA [] = ([], none) ∧
    handle_event "0xaaa" 300 1000 tBT evA [] =
      ([] ++ [mkTradeDoc tdA "pending" 0 1000],
       some (mkTradeDoc tdA "pending" 0 1000)) :=
  ⟨(c5_staleness_guard "0xaaa" 300 10000 tBT evA [] tdA rfl).1 (by decide),
   (c5_staleness_guard "0xaaa" 300 1000 tBT evA [] tdA rfl).2 (by decide)⟩

/-- Counterexample to C1 as stated: for the matching fill event `evZ`,
whose asset-leg filled amount (`token_amt`) is `0`, `handle_event`
does not reject the event — it persists an intent with `size = 0` and
invokes the callback. -/
theorem c1_counterexample :
    codeTokenAmt "0xaaa" evZ = 0 ∧
    (handle_event "0xaaa" 300 1000 tBT evZ []).2 ≠ none ∧
    ∃ d ∈ (handle_event "0xaaa" 300 1000 tBT evZ []).1,
      d.size = 0 ∧ d.status = "pending" := by
  have hdec : decode_event "0xaaa" tBT evZ = some
      { trade_id := "0xfeed", market := "unknown", asset_id := "7",
        side := "buy", price := 0, size := 0 / 1e6,
        timestamp := 1000 } := rfl
  have hcomp : handle_event "0xaaa" 300 1000 tBT evZ [] =
      ([mkTradeDoc
          { trade_id := "0xfeed", market := "unknown", asset_id := "7",
            side := "buy", price := 0, size := 0 / 1e6,
            timestamp := 1000 } "pending" 0 1000],
       some (mkTradeDoc
          { trade_id := "0xfeed", market := "unknown", asset_id := "7",
            side := "buy", price := 0, size := 0 / 1e6,
            timestamp := 1000 } "pending" 0 1000)) := by
    simp only [handle_event, hdec]
    rw [if_pos (by decide)]
    rfl
  refine ⟨rfl, ?_, ?_⟩
  · rw [hcomp]
    simp
  · refine ⟨mkTradeDoc
      { trade_id := "0xfeed", market := "unknown", asset_id := "7",
        side := "buy", price := 0, size := 0 / 1e6,
        timestamp := 1000 } "pending" 0 1000, ?_, ?_, rfl⟩
    · rw [hcomp]
      simp
    · simp [mkTradeDoc]

/-- C1 amended: a matching fill event whose computed asset-leg filled
amount (`token_amt`) is `0` is not rejected: the code sets its price
to `0` and its size to `0`, and — when the event passes the freshness
check — still persists the intent as `pending` and invokes the
callback with it. -/
theorem c1_amended_zero_amount_persisted (target : String)
    (too_old now : Int) (bt : Nat → Int) (ev : RawEvent)
    (db : List TradeDoc)
    (hmatch : pyLower ev.maker = target ∨ pyLower ev.taker = target)
    (hzero : codeTokenAmt target ev = 0)
    (hfresh : now - too_old ≤ bt ev.blockNumber) :
    ∃ td, decode_event target bt ev = some td ∧ td.price = 0 ∧
      td.size = 0 ∧
      handle_event target too_old now bt ev db =
        (db ++ [mkTradeDoc td "pending" 0 now],
         some (mkTradeDoc td "pending" 0 now)) := by
  have hcond : ¬(pyLower ev.maker ≠ target ∧ pyLower ev.taker ≠ target) := by
    rcases hmatch with h | h <;> simp [h]
  have hdec : decode_event target bt ev = some
      { trade_id := ev.transactionHash
        market := "unknown"
        asset_id := toString
          (if ev.makerAssetId ≠ 0 then ev.makerAssetId else ev.takerAssetId)
        side := codeSide target ev
        price := if codeTokenAmt target ev > 0 then
            codeUsdcAmt target ev / codeTokenAmt target ev else 0
        size := codeTokenAmt target ev / 1e6
        timestamp := bt ev.blockNumber } := by
    unfold decode_event
    rw [if_neg hcond]
  refine ⟨_, hdec, ?_, ?_, ?_⟩
  · simp [hzero]
  · simp [hzero]
  · simp only [handle_event, hdec]
    rw [if_pos hfresh]
    rfl

/-- Witness for the amended C1 at the concrete zero-amount event. -/
theorem c1_amended_witness :
    ∃ td, decode_event "0xaaa" tBT evZ = some td ∧ td.price = 0 ∧
      td.size = 0 ∧
      handle_event "0xaaa" 300 1000 tBT evZ [] =
        ([] ++ [mkTradeDoc td "pending" 0 1000],
         some (mkTradeDoc td "pending" 0 1000)) :=
  c1_amended_zero_amount_persisted "0xaaa" 300 1000 tBT evZ []
    (Or.inl (by decide)) rfl (by decide)

/-- Counterexample to C2 as stated: processing the same fill event
(hence the same transaction hash and trade id) twice through the
Monitor persists two records with that trade id and invokes the
callback a second time. -/
theorem c2_counterexample :
    ((handle_event "0xaaa" 300 1000 tBT evA
        (handle_event "0xaaa" 300 1000 tBT evA []).1).1.map
          TradeDoc.trade_id = ["0xdeadbeef", "0xdeadbeef"]) ∧
    (handle_event "0xaaa" 300 1000 tBT evA
        (handle_event "0xaaa" 300 1000 tBT evA []).1).2 ≠ none := by
  have h1 : handle_event "0xaaa" 300 1000 tBT evA [] =
      ([mkTradeDoc tdA "pending" 0 1000],
       some (mkTradeDoc tdA "pending" 0 1000)) := by
    simp only [handle_event,
      show decode_event "0xaaa" tBT evA = some tdA from rfl]
    rw [if_pos (by decide)]
    rfl
  have h2 : handle_event "0xaaa" 300 1000 tBT evA
      [mkTradeDoc tdA "pending" 0 1000] =
      ([mkTradeDoc tdA "pending" 0 1000, mkTradeDoc tdA "pending" 0 1000],
       some (mkTradeDoc tdA "pending" 0 1000)) := by
    simp only [handle_event,
      show decode_event "0xaaa" tBT evA = some tdA from rfl]
    rw [if_pos (by decide)]
    rfl
  constructor
  · simp only [h1]
    simp only [h2]
    simp [mkTradeDoc, tdA]
  · simp only [h1]
    simp only [h2]
    simp

/-- C2 amended: the Monitor performs no deduplication on `trade_id`:
two matching, fresh fill events with the same transaction hash are
each persisted — leaving two records with the same trade id — and the
callback is invoked once per event. -/
theorem c2_amended_no_dedup (target : String) (too_old now : Int)
    (bt : Nat → Int) (e1 e2 : RawEvent) (db : List TradeDoc)
    (td1 td2 : TradeData)
    (h1 : decode_event target bt e1 = some td1)
    (h2 : decode_event target bt e2 = some td2)
    (hhash : e1.transactionHash = e2.transactionHash)
    (hf1 : now - too_old ≤ td1.timestamp)
    (hf2 : now - too_old ≤ td2.timestamp) :
    td1.trade_id = td2.trade_id ∧
    (handle_event target too_old now bt e1 db).2 =
      some (mkTradeDoc td1 "pending" 0 now) ∧
    (handle_event target too_old now bt e2
        (handle_event target too_old now bt e1 db).1).1 =
      db ++ [mkTradeDoc td1 "pending" 0 now,
             mkTradeDoc td2 "pending" 0 now] ∧
    (handle_event target too_old now bt e2
        (handle_event target too_old now bt e1 db).1).2 =
      some (mkTradeDoc td2 "pending" 0 now) := by
  have e1eq : handle_event target too_old now bt e1 db =
      (db ++ [mkTradeDoc td1 "pending" 0 now],
       some (mkTradeDoc td1 "pending" 0 now)) := by
    simp only [handle_event, h1]
    rw [if_pos hf1]
    rfl
  have e2eq : handle_event target too_old now bt e2
      (db ++ [mkTradeDoc td1 "pending" 0 now]) =
      ((db ++ [mkTradeDoc td1 "pending" 0 now]) ++
        [mkTradeDoc td2 "pending" 0 now],
       some (mkTradeDoc td2 "pending" 0 now)) := by
    simp only [handle_event, h2]
    rw [if_pos hf2]
    rfl
  refine ⟨?_, ?_, ?_, ?_⟩
  · rw [decode_event_trade_id target bt e1 td1 h1,
      decode_event_trade_id target bt e2 td2 h2, hhash]
  · rw [e1eq]
  · simp [e1eq, e2eq]
  · simp [e1eq, e2eq]

/-- Witness for the amended C2: the concrete event `evA` processed
twice from an empty store. -/
theorem c2_amended_witness :
    tdA.trade_id = tdA.trade_id ∧
    (handle_event "0xaaa" 300 1000 tBT evA []).2 =
      some (mkTradeDoc tdA "pending" 0 1000) ∧
    (handle_event "0xaaa" 300 1000 tBT evA
        (handle_event "0xaaa" 300 1000 tBT evA []).1).1 =
      [] ++ [mkTradeDoc tdA "pending" 0 1000,
             mkTradeDoc tdA "pending" 0 1000] ∧
    (handle_event "0xaaa" 300 1000 tBT evA
        (handle_event "0xaaa" 300 1000 tBT evA []).1).2 =
      some (mkTradeDoc tdA "pending" 0 1000) :=
  c2_amended_no_dedup "0xaaa" 300 1000 tBT evA evA [] tdA tdA rfl rfl rfl
    (by decide) (by decide)

/-- C4: for an event matching the target with exactly one cash leg
and a positive asset-leg amount, the decoder produces the intent with
`price = cash amount / asset amount`, `size = asset amount / 1e6`, the
non-cash leg's asset id, and the side the spec prescribes — buy iff
the leg the target supplied is the cash leg — in all four
maker/taker × cash-leg combinations; for an event matching neither
account, no intent is produced and `handle_event` has no effect. -/
theorem c4_decoder_refines_spec (target : String) (bt : Nat → Int)
    (ev : RawEvent) :
    ((pyLower ev.maker = target ∨ pyLower ev.taker = target) →
      oneCashLeg ev → 0 < specAssetAmt ev →
      decode_event target bt ev = some
        { trade_id := ev.transactionHash
          market := "unknown"
          asset_id := toString (specAssetId ev)
          side := specSide (pyLower ev.maker == target) ev
          price := specCashAmt ev / specAssetAmt ev
          size := specAssetAmt ev / 1e6
          timestamp := bt ev.blockNumber }) ∧
    (pyLower ev.maker ≠ target → pyLower ev.taker ≠ target →
      decode_event target bt ev = none ∧
      ∀ (too_old now : Int) (db : List TradeDoc),
        handle_event target too_old now bt ev db = (db, none)) := by
  constructor
  · intro hmatch hcash hpos
    have hcash' : ev.makerAssetId = 0 ↔ ev.takerAssetId ≠ 0 := hcash
    have hcond : ¬(pyLower ev.maker ≠ target ∧ pyLower ev.taker ≠ target) := by
      rcases hmatch with h | h <;> simp [h]
    unfold decode_event
    rw [if_neg hcond]
    by_cases hm : pyLower ev.maker = target
    · have hbeq : (pyLower ev.maker == target) = true := by simp [hm]
      by_cases hz : ev.makerAssetId = 0
      · have hpos' : 0 < ev.takerAmountFilled := by
          simpa [specAssetAmt, hz] using hpos
        simp [codeSide, codeTokenAmt, codeUsdcAmt, specAssetAmt,
          specCashAmt, specAssetId, specSide, hm, hz, hbeq, hpos']
      · have hpos' : 0 < ev.makerAmountFilled := by
          simpa [specAssetAmt, hz] using hpos
        simp [codeSide, codeTokenAmt, codeUsdcAmt, specAssetAmt,
          specCashAmt, specAssetId, specSide, hm, hz, hbeq, hpos']
    · have ht : pyLower ev.taker = target := by
        rcases hmatch with h | h
        · exact absurd h hm
        · exact h
      have hbeq : (pyLower ev.maker == target) = false := by
        simp [hm]
      by_cases hz : ev.takerAssetId = 0
      · have hmz : ev.makerAssetId ≠ 0 := fun h0 => (hcash'.mp h0) hz
        have hpos' : 0 < ev.makerAmountFilled := by
          simpa [specAssetAmt, hmz] using hpos
        simp [codeSide, codeTokenAmt, codeUsdcAmt, specAssetAmt,
          specCashAmt, specAssetId, specSide, hm, ht, hz, hmz, hbeq, hpos']
      · have hmz : ev.makerAssetId = 0 := hcash'.mpr hz
        have hpos' : 0 < ev.takerAmountFilled := by
          simpa [specAssetAmt, hmz] using hpos
        simp [codeSide, codeTokenAmt, codeUsdcAmt, specAssetAmt,
          specCashAmt, specAssetId, specSide, hm, ht, hz, hmz, hbeq, hpos']
  · intro hm ht
    have hdec : decode_event target bt ev = none := by
      unfold decode_event
      rw [if_pos ⟨hm, ht⟩]
    refine ⟨hdec, fun too_old now db => ?_⟩
    simp only [handle_event, hdec]

/-- Witness for C4: the concrete matching maker-buy event `evA` and
the non-matching event `evN`. -/
theorem c4_witness :
    decode_event "0xaaa" tBT evA = some
      { trade_id := evA.transactionHash
        market := "unknown"
        asset_id := toString (specAssetId evA)
        side := specSide (pyLower evA.maker == "0xaaa") evA
        price := specCashAmt evA / specAssetAmt evA
        size := specAssetAmt evA / 1e6
        timestamp := tBT evA.blockNumber } ∧
    decode_event "0xaaa" tBT evN = none ∧
    handle_event "0xaaa" 300 1000 tBT evN [] = ([], none) :=
  ⟨(c4_decoder_refines_spec "0xaaa" tBT evA).1 (Or.inl (by decide))
      (by decide) (by decide),
   ((c4_decoder_refines_spec "0xaaa" tBT evN).2 (by decide) (by decide)).1,
   ((c4_decoder_refines_spec "0xaaa" tBT evN).2 (by decide)
      (by decide)).2 300 1000 []⟩

end CopyBot
